import Mathlib

/-!
Verification of the Tactility build tool (`tactility.py`).

The development shallowly embeds the relevant parts of the Python source:
pure string and path manipulation is translated directly; filesystem state
is passed explicitly as a value; external effects (the `idf.py` subprocess,
network downloads, HTTP requests, the `re` module) are parameters supplied
by an environment record; Python exceptions that a function may let escape
are modelled with `Except`.
-/

set_option autoImplicit false

namespace Tactility

/-! ## String helpers (kernel-reducible replacements for `String` library calls) -/

/-- `l₁` is a suffix of `l₂`, by direct recursion on reversals. -/
def listIsSuffixOf {α : Type} [DecidableEq α] (l₁ l₂ : List α) : Bool :=
  List.isPrefixOf l₁.reverse l₂.reverse

/-- `s` ends with `suffix` (models Python `str.endswith`). -/
def strEndsWith (s suffix : String) : Bool :=
  listIsSuffixOf suffix.data s.data

/-- `s` starts with `pre` (models Python `str.startswith`). -/
def strStartsWith (s pre : String) : Bool :=
  List.isPrefixOf pre.data s.data

/-- Split a character list on a separator character. -/
def splitCharsOn (sep : Char) : List Char → List Char → List (List Char)
  | [], acc => [acc.reverse]
  | c :: cs, acc =>
    if c = sep then acc.reverse :: splitCharsOn sep cs []
    else splitCharsOn sep cs (c :: acc)

/-- Split a string into its `/`-separated components (empties kept). -/
def splitSlash (s : String) : List String :=
  (splitCharsOn '/' s.data []).map String.mk

/-- Join path components with `/` separators. -/
def joinComps : List String → String
  | [] => ""
  | [x] => x
  | x :: xs => x ++ "/" ++ joinComps xs

/-- Python `str.removesuffix`. -/
def removesuffix (s suffix : String) : String :=
  if strEndsWith s suffix then
    String.mk (s.data.take (s.data.length - suffix.data.length))
  else s

/-- Last `/`-separated component, models `os.path.basename` for the paths
the tool builds (no trailing slash). -/
def lastComp : List String → String
  | [] => ""
  | [x] => x
  | _ :: x :: xs => lastComp (x :: xs)

def basename (p : String) : String :=
  lastComp (splitSlash p)

/-! ## Constants from the top of `tactility.py` (POSIX path model, defaults:
`use_local_sdk = False`, which is the mode in effect on every code path the
claims are about — `sdk_download_all` is only reached when `use_local_sdk`
is false, and the build claims are stated for the remote-SDK mode). -/

def ttbuild_path : String := ".tactility"
def ttbuild_version : String := "3.4.0"
def ttbuild_cdn : String := "https://cdn.tactilityproject.org"
def ttport : Nat := 6666

/-- `get_url(ip, path)`. -/
def get_url (ip path : String) : String :=
  "http://" ++ ip ++ ":" ++ toString ttport ++ path

/-! ## Filesystem model for the build directories

`find_elf_file` only ever inspects the per-platform cmake build directory,
so the filesystem is modelled as an association list from directory path to
its listing (`os.listdir` order). A missing key models a missing directory. -/

structure Fs where
  dirs : List (String × List String)
deriving DecidableEq, Repr

/-- Directory listing lookup: `none` when the directory does not exist. -/
def lookupDir (fs : Fs) (path : String) : Option (List String) :=
  (fs.dirs.find? (fun e => e.1 == path)).map (fun e => e.2)

/-- `os.remove(path)`: drop the file whose joined path equals `path`. -/
def os_remove (fs : Fs) (path : String) : Fs :=
  ⟨fs.dirs.map (fun e => (e.1, e.2.filter (fun f => (e.1 ++ "/" ++ f) != path)))⟩

/-- `get_cmake_path(platform)` = `os.path.join("build", f"cmake-build-{platform}")`. -/
def get_cmake_path (platform : String) : String :=
  "build" ++ "/" ++ ("cmake-build-" ++ platform)

/-- `find_elf_file(platform)`: first file in the cmake dir ending in
`.app.elf`, joined with the directory; `None` if the dir is missing or no
such file exists. -/
def find_elf_file (fs : Fs) (platform : String) : Option String :=
  let cmakeDir := get_cmake_path platform
  match lookupDir fs cmakeDir with
  | none => none
  | some files =>
    match files.find? (fun f => strEndsWith f ".app.elf") with
    | some f => some (cmakeDir ++ "/" ++ f)
    | none => none

/-- `get_sdk_dir(version, platform)` in the default (remote) mode:
`os.path.join(ttbuild_path, f"{version}-{platform}", "TactilitySDK")`. -/
def get_sdk_dir (version platform : String) : String :=
  ttbuild_path ++ "/" ++ (version ++ "-" ++ platform) ++ "/" ++ "TactilitySDK"

/-- `get_sdk_root_dir(version, platform)`. -/
def get_sdk_root_dir (version platform : String) : String :=
  ttbuild_path ++ "/" ++ (version ++ "-" ++ platform)

/-- `get_sdk_url(version, file)`. -/
def get_sdk_url (version file : String) : String :=
  ttbuild_cdn ++ "/sdk/" ++ version ++ "/" ++ file

/-! ## Build orchestrator (`build_first`, `build_consecutively`, `build_all`)

The external `idf.py` subprocess is an environment parameter: given the
command line and the filesystem at invocation time it yields an exit code,
the filesystem after it ran, and its buffered combined output. Observable
side effects of the orchestrator are recorded as a trace of events. -/

inductive BuildEv where
  /-- `os.environ["TACTILITY_SDK_PATH"] = sdk_dir` -/
  | setEnvVar (value : String)
  /-- `shutil.copy(sdkconfig_path, "sdkconfig")` -/
  | copyConfig (src dst : String)
  /-- `os.remove(elf_path)` in `build_first` -/
  | removeElf (path : String)
  /-- `subprocess.Popen(build_command, ...)` together with `wait_for_process` -/
  | runCmd (args : List String)
  /-- the buffered process output printed line by line -/
  | printLines (lines : List String)
deriving DecidableEq, Repr

structure CmdEnv where
  /-- behaviour of the external build tool: command line and filesystem at
  invocation go in; exit code, filesystem after the run, and buffered
  output come out. -/
  run : List String → Fs → Nat × Fs × List String

/-- `build_first(version, platform, skip_build)` acting on filesystem `fs`.
Returns (returned bool, filesystem after, event trace). -/
def build_first (env : CmdEnv) (fs : Fs) (version platform : String)
    (skipBuild : Bool) : Bool × Fs × List BuildEv :=
  let sdkDir := get_sdk_dir version platform
  let sdkconfigPath := ttbuild_path ++ "/" ++ ("sdkconfig.app." ++ platform)
  let ev0 := [BuildEv.setEnvVar sdkDir, BuildEv.copyConfig sdkconfigPath "sdkconfig"]
  let step :=
    match find_elf_file fs platform with
    | some elfPath => (os_remove fs elfPath, ev0 ++ [BuildEv.removeElf elfPath])
    | none => (fs, ev0)
  let fs1 := step.1
  let ev1 := step.2
  if skipBuild then (true, fs1, ev1)
  else
    let buildCommand := ["idf.py", "-B", get_cmake_path platform, "build"]
    let r := env.run buildCommand fs1
    let rc := r.1
    let fs2 := r.2.1
    let output := r.2.2
    let ev2 := ev1 ++ [BuildEv.runCmd buildCommand]
    if rc = 0 then (true, fs2, ev2)
    else
      match find_elf_file fs2 platform with
      | none => (false, fs2, ev2 ++ [BuildEv.printLines output])
      | some _ => (true, fs2, ev2)

/-- `build_consecutively(version, platform, skip_build)` acting on `fs`. -/
def build_consecutively (env : CmdEnv) (fs : Fs) (version platform : String)
    (skipBuild : Bool) : Bool × Fs × List BuildEv :=
  let sdkDir := get_sdk_dir version platform
  let sdkconfigPath := ttbuild_path ++ "/" ++ ("sdkconfig.app." ++ platform)
  let ev0 := [BuildEv.setEnvVar sdkDir, BuildEv.copyConfig sdkconfigPath "sdkconfig"]
  if skipBuild then (true, fs, ev0)
  else
    let buildCommand := ["idf.py", "-B", get_cmake_path platform, "elf"]
    let r := env.run buildCommand fs
    let rc := r.1
    let fs2 := r.2.1
    let output := r.2.2
    let ev1 := ev0 ++ [BuildEv.runCmd buildCommand]
    if rc = 0 then (true, fs2, ev1)
    else (false, fs2, ev1 ++ [BuildEv.printLines output])

/-- The per-platform dispatch in the body of `build_all`'s loop:
run `build_first` when no ELF artifact exists, else `build_consecutively`. -/
def build_platform (env : CmdEnv) (fs : Fs) (version platform : String)
    (skipBuild : Bool) : Bool × Fs × List BuildEv :=
  match find_elf_file fs platform with
  | none => build_first env fs version platform skipBuild
  | some _ => build_consecutively env fs version platform skipBuild

/-- `build_all(version, platforms, skip_build)`: iterate platforms in order,
returning `False` at the first per-platform failure. -/
def build_all (env : CmdEnv) (fs : Fs) (version : String) (platforms : List String)
    (skipBuild : Bool) : Bool × Fs × List BuildEv :=
  match platforms with
  | [] => (true, fs, [])
  | p :: rest =>
    let r := build_platform env fs version p skipBuild
    if r.1 then
      let r2 := build_all env r.2.1 version rest skipBuild
      (r2.1, r2.2.1, r.2.2 ++ r2.2.2)
    else (false, r.2.1, r.2.2)

/-- The bool and filesystem reached after running `build_all`'s loop over a
platform list (trace dropped); used to phrase fail-fast hypotheses about a
prefix of the platform list. -/
def build_seq (env : CmdEnv) (fs : Fs) (version : String) (platforms : List String)
    (skipBuild : Bool) : Bool × Fs :=
  match platforms with
  | [] => (true, fs)
  | p :: rest =>
    let r := build_platform env fs version p skipBuild
    if r.1 then build_seq env r.2.1 version rest skipBuild
    else (false, r.2.1)

/-! ## Safe zip extraction (`safe_extract_zip`)

Paths are resolved lexically: `os.path.realpath` is modelled as
absolutisation against the current working directory followed by
normalisation of empty, `.` and `..` components (no symlinks exist under a
directory into which nothing has been extracted yet). The raised
`ValueError` is modelled as `Except.error`; the value of the `ok` branch is
the list of absolute paths that `zip_ref.extractall` writes. -/

/-- Component normalisation of `os.path.realpath` / `os.path.normpath`:
drop empty and `.` components, let `..` pop (staying at the root when
already there). `acc` is the reversed stack of kept components. -/
def normComps : List String → List String → List String
  | acc, [] => acc.reverse
  | acc, c :: cs =>
    if c = "" ∨ c = "." then normComps acc cs
    else if c = ".." then normComps (acc.drop 1) cs
    else normComps (c :: acc) cs

/-- `os.path.realpath(p)` as an absolute component list, with working
directory `cwd` (itself an absolute component list). -/
def realpathComps (cwd : List String) (p : String) : List String :=
  match p.data with
  | '/' :: _ => normComps [] (splitSlash p)
  | _ => normComps [] (cwd ++ splitSlash p)

/-- Render an absolute component list back to a path string. -/
def renderAbs (comps : List String) : String :=
  "/" ++ joinComps comps

/-- `os.path.join(base, rel)` for an absolute `base`: an absolute `rel`
replaces `base` entirely. -/
def path_join (base rel : String) : String :=
  match rel.data with
  | '/' :: _ => rel
  | _ => base ++ "/" ++ rel

/-- The per-member check of `safe_extract_zip`: `True` when the member's
resolved destination escapes the target directory (the `realpath` of the
join does not start with `target + os.sep`), i.e. when the loop raises. -/
def zip_member_escapes (cwd : List String) (td : String) (member : String) : Bool :=
  ! strStartsWith (renderAbs (realpathComps cwd (path_join td member))) (td ++ "/")

/-- Path sanitisation applied by `zipfile.ZipFile.extractall` to each member
before writing: split on the separator and drop empty, `.` and `..` parts. -/
def zip_sanitize_member (m : String) : List String :=
  (splitSlash m).filter (fun x => x ≠ "" ∧ x ≠ "." ∧ x ≠ "..")

/-- The absolute file paths `zip_ref.extractall(target)` writes under the
(canonical) target directory `td`. -/
def extractall_written (td : String) (members : List String) : List String :=
  members.filterMap (fun m =>
    match zip_sanitize_member m with
    | [] => none
    | comps => some (td ++ "/" ++ joinComps comps))

/-- `safe_extract_zip(zip_ref, target_dir)`, with `members` the names in
`zip_ref.infolist()`. The loop raises `ValueError` at the first member whose
resolved destination is not strictly inside the canonicalized target;
otherwise `extractall` runs and the written paths are returned. -/
def safe_extract_zip (cwd : List String) (members : List String)
    (target_dir : String) : Except String (List String) :=
  let td := renderAbs (realpathComps cwd target_dir)
  match members.find? (fun m => zip_member_escapes cwd td m) with
  | some m => .error ("Invalid zip entry: " ++ m)
  | none => .ok (extractall_written td members)

/-! ## SDK download and caching (`sdk_exists`, `sdk_download`, `sdk_download_all`)

Network fetches are events; their success, the parsed `index.json` content
and the platform archive's member list come from an environment record.
The directory set of the SDK cache is a list of existing directory paths;
`zipfile.extractall` creates the extraction target directory exactly when
it writes at least one member. An escaping zip member makes
`safe_extract_zip` raise `ValueError`, which `sdk_download` and
`sdk_download_all` do not catch (`Except.error`). -/

structure SdkFs where
  dirs : List String
deriving DecidableEq, Repr

/-- `os.path.isdir`. -/
def isdir (fs : SdkFs) (path : String) : Bool :=
  fs.dirs.contains path

/-- `os.makedirs(path, exist_ok=True)`. -/
def makedirs (fs : SdkFs) (path : String) : SdkFs :=
  if fs.dirs.contains path then fs else ⟨path :: fs.dirs⟩

/-- `sdk_exists(version, platform)` (remote mode). -/
def sdk_exists (fs : SdkFs) (version platform : String) : Bool :=
  isdir fs (get_sdk_dir version platform)

inductive NetEv where
  /-- one `download_file(url, filepath)` call -/
  | download (url : String) (filepath : String)
deriving DecidableEq, Repr

structure SdkEnv where
  /-- working directory used by `os.path.realpath` -/
  cwd : List String
  /-- whether `download_file` succeeds for a given url -/
  downloadOk : String → Bool
  /-- the `platforms` object of the downloaded `index.json`, as an
  association list platform ↦ archive file name -/
  indexPlatforms : List (String × String)
  /-- member names of the downloaded platform archive -/
  zipMembers : List String

/-- `sdk_download(version, platform)`. Returns the bool result, the cache
filesystem after the call and the network events; `Except.error` is the
uncaught `ValueError` from `safe_extract_zip`. -/
def sdk_download (env : SdkEnv) (fs : SdkFs) (version platform : String) :
    Except String (Bool × SdkFs × List NetEv) :=
  let root := get_sdk_root_dir version platform
  let fs1 := makedirs fs root
  let indexUrl := get_sdk_url version "index.json"
  let indexPath := root ++ "/" ++ "index.json"
  let ev1 := [NetEv.download indexUrl indexPath]
  if ! env.downloadOk indexUrl then .ok (false, fs1, ev1)
  else
    match env.indexPlatforms.find? (fun e => e.1 == platform) with
    | none => .ok (false, fs1, ev1)
    | some entry =>
      let zipUrl := get_sdk_url version entry.2
      let zipPath := root ++ "/" ++ (version ++ "-" ++ platform ++ ".zip")
      let ev2 := ev1 ++ [NetEv.download zipUrl zipPath]
      if ! env.downloadOk zipUrl then .ok (false, fs1, ev2)
      else
        let sdkDir := root ++ "/" ++ "TactilitySDK"
        match safe_extract_zip env.cwd env.zipMembers sdkDir with
        | .error e => .error e
        | .ok written =>
          let fs2 := if written.isEmpty then fs1 else makedirs fs1 sdkDir
          .ok (true, fs2, ev2)

/-- `sdk_download_all(version, platforms)`. -/
def sdk_download_all (env : SdkEnv) (fs : SdkFs) (version : String)
    (platforms : List String) : Except String (Bool × SdkFs × List NetEv) :=
  match platforms with
  | [] => .ok (true, fs, [])
  | p :: rest =>
    if ! sdk_exists fs version p then
      match sdk_download env fs version p with
      | .error e => .error e
      | .ok (false, fs1, evs) => .ok (false, fs1, evs)
      | .ok (true, fs1, evs) =>
        match sdk_download_all env fs1 version rest with
        | .error e => .error e
        | .ok (b, fs2, evs2) => .ok (b, fs2, evs ++ evs2)
    else
      sdk_download_all env fs version rest

/-! ## Packaging (`package_intermediate_*`, `package_name`, `package_all`)

Python exceptions that may escape a function are modelled with `Except`:
only the `try` block of `package_all` catches (and it catches every
exception). Which filesystem calls raise is part of the environment record,
so the theorems quantify over all fault patterns. The staging directory is
represented by the list of relative paths placed into it, and a written tar
archive by its output path and the relative paths it contains. -/

inductive PyErr where
  /-- an `OSError`/`IOError` from a filesystem call -/
  | ioError
  /-- `platforms[0]` on an empty list -/
  | indexError
  /-- `os.path.basename(None)` -/
  | typeError
  /-- the `ValueError` of `safe_extract_zip` -/
  | valueError (msg : String)
deriving DecidableEq, Repr

structure PkgEnv where
  /-- the build directories, probed by `find_elf_file` -/
  fs : Fs
  /-- `os.path.isfile("manifest.properties")` -/
  manifestExists : Bool
  /-- `os.path.isdir("assets")` -/
  assetsExists : Bool
  /-- relative paths under `assets/` copied by `shutil.copytree` -/
  assetsFiles : List String
  /-- `shutil.copy` of the manifest raises `IOError` -/
  copyManifestRaises : Bool
  /-- `shutil.copy` of a platform's ELF raises `IOError` -/
  copyElfRaises : String → Bool
  /-- `shutil.copytree` of the assets raises `IOError` -/
  copyAssetsRaises : Bool
  /-- `tarfile.open` raises -/
  tarOpenRaises : Bool
  /-- `tar.add` raises -/
  tarAddRaises : Bool

/-- `package_intermediate_manifest(target_path)`: returned bool plus the
relative paths added to the staging directory. -/
def package_intermediate_manifest (env : PkgEnv) :
    Except PyErr (Bool × List String) :=
  if ! env.manifestExists then .ok (false, [])
  else if env.copyManifestRaises then .error .ioError
  else .ok (true, ["manifest.properties"])

/-- The loop of `package_intermediate_binaries(target_path, platforms)`:
copies each platform's ELF into `elf/{platform}.elf`, returning `False` at
the first platform without an artifact. -/
def package_intermediate_binaries (env : PkgEnv) (platforms : List String) :
    Except PyErr (Bool × List String) :=
  match platforms with
  | [] => .ok (true, [])
  | p :: rest =>
    match find_elf_file env.fs p with
    | none => .ok (false, [])
    | some _ =>
      if env.copyElfRaises p then .error .ioError
      else
        match package_intermediate_binaries env rest with
        | .error e => .error e
        | .ok (b, files) => .ok (b, ("elf/" ++ p ++ ".elf") :: files)

/-- `package_intermediate_assets(target_path)` (best effort, no bool). -/
def package_intermediate_assets (env : PkgEnv) : Except PyErr (List String) :=
  if env.assetsExists then
    if env.copyAssetsRaises then .error .ioError
    else .ok (env.assetsFiles.map (fun f => "assets/" ++ f))
  else .ok []

/-- `package_intermediate(platforms)`: recreate the staging directory, copy
manifest, binaries and assets. Returns the bool plus the staging contents. -/
def package_intermediate (env : PkgEnv) (platforms : List String) :
    Except PyErr (Bool × List String) :=
  match package_intermediate_manifest env with
  | .error e => .error e
  | .ok (false, _) => .ok (false, [])
  | .ok (true, manifestFiles) =>
    match package_intermediate_binaries env platforms with
    | .error e => .error e
    | .ok (false, _) => .ok (false, [])
    | .ok (true, elfFiles) =>
      match package_intermediate_assets env with
      | .error e => .error e
      | .ok assetFiles => .ok (true, manifestFiles ++ elfFiles ++ assetFiles)

/-- `package_name(platforms)`: derive the archive path from the first
platform's ELF file name. `platforms[0]` on an empty list raises
`IndexError`; `os.path.basename(None)` raises `TypeError`. -/
def package_name (fs : Fs) (platforms : List String) : Except PyErr String :=
  match platforms with
  | [] => .error .indexError
  | p :: _ =>
    match find_elf_file fs p with
    | none => .error .typeError
    | some elfPath =>
      .ok ("build" ++ "/" ++ (removesuffix (basename elfPath) ".app.elf" ++ ".app"))

/-- A written tar archive: output path and contained relative paths. -/
structure TarFile where
  path : String
  contents : List String
deriving DecidableEq, Repr

/-- `package_all(platforms)`: stage, then tar the staging directory inside a
`try` block that converts every exception into a reported failure. The
second component records the archive file written on disk, if any
(`tarfile.open(..., "w")` creates the file; a failing `tar.add` leaves it
partially written). -/
def package_all (env : PkgEnv) (platforms : List String) :
    Except PyErr (Bool × Option TarFile) :=
  match package_intermediate env platforms with
  | .error e => .error e
  | .ok (false, _) => .ok (false, none)
  | .ok (true, staging) =>
    match package_name env.fs platforms with
    | .error _ => .ok (false, none)
    | .ok tarPath =>
      if env.tarOpenRaises then .ok (false, none)
      else if env.tarAddRaises then .ok (false, some ⟨tarPath, []⟩)
      else .ok (true, some ⟨tarPath, staging⟩)

/-- The archive file left on disk by a `package_all` outcome (an uncaught
exception also leaves none: it escapes before `tarfile.open`). -/
def tarWritten (r : Except PyErr (Bool × Option TarFile)) : Option TarFile :=
  match r with
  | .error _ => none
  | .ok (_, t) => t

/-- The files written by a `safe_extract_zip` outcome (a raised `ValueError`
writes none: the check loop precedes `extractall`). -/
def writtenPaths (r : Except String (List String)) : List String :=
  match r with
  | .error _ => []
  | .ok l => l

/-! ## Tool metadata validation (`validate_self`)

The fetched JSON object is modelled by the presence and value of the three
keys the function reads; Python's `re.search` is an external oracle
parameter (pattern, string ↦ matched?). `exit_with_error` and `sys.exit(1)`
both terminate the process with status 1. -/

structure SdkJson where
  toolVersion : Option String
  toolCompatibility : Option String
  toolDownloadUrl : Option String
deriving DecidableEq, Repr

inductive VResult where
  /-- the process terminated via `sys.exit(code)` -/
  | exited (code : Nat)
  /-- validation returned normally; `warned` records whether the
  new-version warning was printed -/
  | ok (warned : Bool)
deriving DecidableEq, Repr

/-- `validate_self(sdk_json)` with `search` standing for `re.search`
(returning whether the match is non-`None`). -/
def validate_self (search : String → String → Bool) (j : SdkJson) : VResult :=
  match j.toolVersion with
  | none => .exited 1
  | some tv =>
    match j.toolCompatibility with
    | none => .exited 1
    | some tc =>
      match j.toolDownloadUrl with
      | none => .exited 1
      | some _ =>
        let warned := tv != ttbuild_version
        if ! search tc ttbuild_version then .exited 1
        else .ok warned

/-! ## Device client (`install_action`)

The HTTP layer is an environment parameter: either a response with a status
code, or a `requests.RequestException`. Console status reports are
collected as messages so the different failure reports can be told apart. -/

inductive HttpOutcome where
  | resp (status : Nat)
  | transportError (msg : String)
deriving DecidableEq, Repr

inductive Msg where
  | statusBusy (s : String)
  | statusSuccess (s : String)
  | statusError (s : String)
deriving DecidableEq, Repr

structure InstallEnv where
  /-- build directories probed by `find_elf_file` -/
  fs : Fs
  /-- `open(package_path, "rb")` raises `IOError` -/
  openRaisesIO : Bool
  /-- result of `requests.put(url, files=files, timeout=...)` -/
  outcome : HttpOutcome

/-- The pre-check loop of `install_action`: first platform without an ELF
artifact, if any. -/
def install_missing_elf (fs : Fs) : List String → Option String
  | [] => none
  | p :: rest =>
    match find_elf_file fs p with
    | none => some p
    | some _ => install_missing_elf fs rest

/-- `install_action(ip, platforms)`: returned bool and printed status
messages; `Except.error` is an exception escaping the function (the `try`
only covers the upload, and only catches `RequestException` and `IOError`). -/
def install_action (env : InstallEnv) (ip : String) (platforms : List String) :
    Except PyErr (Bool × List Msg) :=
  let busy := [Msg.statusBusy "Installing"]
  match install_missing_elf env.fs platforms with
  | some p => .ok (false, busy ++ [Msg.statusError ("ELF file not built for " ++ p)])
  | none =>
    match package_name env.fs platforms with
    | .error e => .error e
    | .ok _packagePath =>
      let _url := get_url ip "/app/install"
      if env.openRaisesIO then
        .ok (false, busy ++ [Msg.statusError "Install file error: [io]"])
      else
        match env.outcome with
        | .transportError m =>
          .ok (false, busy ++ [Msg.statusError ("Install request failed: " ++ m)])
        | .resp status =>
          if status ≠ 200 then .ok (false, busy ++ [Msg.statusError "Install failed"])
          else .ok (true, busy ++ [Msg.statusSuccess "Installing"])

/-! ## `download_file`

`urllib.parse.urlparse` scheme recognition is embedded (a leading run of
ASCII letters, digits, `+`, `-`, `.` starting with a letter, before the
first `:`, lowercased); the network transfer is an environment parameter.
Observable effects are returned as a trace. -/

/-- Split a character list at the first `:`, if any. -/
def takeUntilColon : List Char → Option (List Char × List Char)
  | [] => none
  | c :: cs =>
    if c = ':' then some ([], cs)
    else
      match takeUntilColon cs with
      | some (before, after) => some (c :: before, after)
      | none => none

/-- A character allowed inside a URL scheme. -/
def schemeChar (c : Char) : Bool :=
  c.isAlphanum || c = '+' || c = '-' || c = '.'

/-- `urlparse(url).scheme`. -/
def urlparse_scheme (url : String) : String :=
  match takeUntilColon url.data with
  | none => ""
  | some (before, _) =>
    match before with
    | [] => ""
    | c0 :: rest =>
      if c0.isAlpha && (c0 :: rest).all schemeChar then
        String.mk ((c0 :: rest).map Char.toLower)
      else ""

inductive DlEv where
  /-- `print_error(...)` -/
  | printedError (msg : String)
  /-- `urllib.request.urlopen(request, ...)` opened a connection -/
  | netOpen (url : String)
  /-- `open(filepath, "wb")` created/truncated the target file -/
  | fileOpened (path : String)
deriving DecidableEq, Repr

inductive FetchOutcome where
  /-- `urlopen` raised `OSError`: no connection data, target file untouched -/
  | connectError
  /-- the transfer raised `OSError` after the target file was opened -/
  | readError
  | success
deriving DecidableEq, Repr

structure DlEnv where
  fetch : String → FetchOutcome

/-- `download_file(url, filepath)`: returned bool and effect trace. -/
def download_file (env : DlEnv) (url filepath : String) : Bool × List DlEv :=
  let scheme := urlparse_scheme url
  if !(scheme = "http" || scheme = "https") then
    (false, [DlEv.printedError ("Unsupported URL scheme: " ++ scheme)])
  else
    match env.fetch url with
    | .connectError => (false, [DlEv.netOpen url])
    | .readError => (false, [DlEv.netOpen url, DlEv.fileOpened filepath])
    | .success => (true, [DlEv.netOpen url, DlEv.fileOpened filepath])

/-! ## Concrete sample environments used to evaluate the model -/

/-- An external command that always exits 0 and leaves the filesystem
unchanged (no artifact is produced). -/
def cmdEnvExitZero : CmdEnv := ⟨fun _ fs => (0, fs, [])⟩

/-- A build directory for `esp32s3` holding one ELF artifact. -/
def fsWithElf : Fs := ⟨[("build/cmake-build-esp32s3", ["m.app.elf"])]⟩

/-- An external command that exits 1 but leaves an ELF artifact behind. -/
def cmdEnvFailCreatesElf : CmdEnv := ⟨fun _ _ => (1, fsWithElf, ["err"])⟩

/-- An external command that exits 1 and changes nothing. -/
def cmdEnvFailNoElf : CmdEnv := ⟨fun _ fs => (1, fs, ["err"])⟩

/-! # Theorems -/

/-! ## Helper lemmas -/

theorem isPrefixOf_append_self (l₁ l₂ : List Char) :
    List.isPrefixOf l₁ (l₁ ++ l₂) = true := by
  induction l₁ with
  | nil => simp [List.isPrefixOf]
  | cons a as ih => simp [List.isPrefixOf, ih]

theorem strStartsWith_append (s t : String) : strStartsWith (s ++ t) s = true := by
  simp only [strStartsWith, String.data_append]
  exact isPrefixOf_append_self s.data t.data

/-! ## C10: `download_file` on a non-http(s) URL scheme -/

/-- C10: for every URL whose parsed scheme is neither `http` nor `https`,
`download_file` returns `False` after printing an error, opening no network
connection and touching no target file (its whole effect trace is the one
printed error). -/
theorem download_file_bad_scheme (env : DlEnv) (url filepath : String)
    (h : urlparse_scheme url ≠ "http" ∧ urlparse_scheme url ≠ "https") :
    download_file env url filepath
      = (false, [DlEv.printedError ("Unsupported URL scheme: " ++ urlparse_scheme url)]) := by
  have h1 : decide (urlparse_scheme url = "http") = false := by
    simpa using h.1
  have h2 : decide (urlparse_scheme url = "https") = false := by
    simpa using h.2
  simp [download_file, h1, h2]

theorem download_file_bad_scheme_witness :
    (urlparse_scheme "ftp://host/a" ≠ "http" ∧ urlparse_scheme "ftp://host/a" ≠ "https")
    ∧ download_file ⟨fun _ => FetchOutcome.success⟩ "ftp://host/a" "out.bin"
        = (false, [DlEv.printedError ("Unsupported URL scheme: " ++ urlparse_scheme "ftp://host/a")]) :=
  ⟨by decide,
   download_file_bad_scheme ⟨fun _ => FetchOutcome.success⟩ "ftp://host/a" "out.bin" (by decide)⟩

/-! ## C8: `validate_self` -/

/-- C8: `validate_self` terminates the process (exit status 1) when any of
the keys `toolVersion`, `toolCompatibility`, `toolDownloadUrl` is missing,
or when the `toolCompatibility` regex does not match the local version
string; when all keys are present and the regex matches, validation
returns normally and a version difference alone only sets the non-fatal
warning. -/
theorem validate_self_spec (search : String → String → Bool) (j : SdkJson) :
    (j.toolVersion = none ∨ j.toolCompatibility = none ∨ j.toolDownloadUrl = none →
      validate_self search j = VResult.exited 1)
    ∧ (∀ tv tc du, j = ⟨some tv, some tc, some du⟩ →
        search tc ttbuild_version = false → validate_self search j = VResult.exited 1)
    ∧ (∀ tv tc du, j = ⟨some tv, some tc, some du⟩ →
        search tc ttbuild_version = true →
        validate_self search j = VResult.ok (tv != ttbuild_version)) := by
  refine ⟨?_, ?_, ?_⟩
  · rcases j with ⟨tv, tc, du⟩
    rintro (hm | hm | hm)
    · cases hm; simp [validate_self]
    · cases hm; cases tv <;> simp [validate_self]
    · cases hm; cases tv <;> cases tc <;> simp [validate_self]
  · rintro tv tc du rfl hsearch
    simp [validate_self, hsearch]
  · rintro tv tc du rfl hsearch
    simp [validate_self, hsearch]

theorem validate_self_spec_witness :
    validate_self (fun _ _ => true) ⟨some "9.9.9", none, some "u"⟩ = VResult.exited 1
    ∧ validate_self (fun _ _ => true) ⟨some "9.9.9", some "3\\.", some "u"⟩
        = VResult.ok ("9.9.9" != ttbuild_version) :=
  ⟨(validate_self_spec (fun _ _ => true) ⟨some "9.9.9", none, some "u"⟩).1
      (Or.inr (Or.inl rfl)),
   (validate_self_spec (fun _ _ => true) ⟨some "9.9.9", some "3\\.", some "u"⟩).2.2
      "9.9.9" "3\\." "u" rfl rfl⟩

/-! ## C2: `safe_extract_zip` path-traversal safety -/

/-- C2: the check loop of `safe_extract_zip` runs over every entry before
`extractall` writes anything; if any entry's resolved absolute destination
is not a strict descendant of the canonicalized target directory, the
function raises (`Except.error`) and writes no file, and every path a
non-raising extraction writes lies strictly inside the target directory. -/
theorem safe_extract_zip_safety (cwd : List String) (members : List String)
    (target_dir : String) :
    ((∃ m ∈ members,
        zip_member_escapes cwd (renderAbs (realpathComps cwd target_dir)) m = true) →
      (∃ msg, safe_extract_zip cwd members target_dir = Except.error msg)
      ∧ writtenPaths (safe_extract_zip cwd members target_dir) = [])
    ∧ (∀ p ∈ writtenPaths (safe_extract_zip cwd members target_dir),
        strStartsWith p (renderAbs (realpathComps cwd target_dir) ++ "/") = true) := by
  constructor
  · intro hex
    cases hf : members.find?
        (fun m => zip_member_escapes cwd (renderAbs (realpathComps cwd target_dir)) m) with
    | none =>
      exfalso
      obtain ⟨m, hm, hesc⟩ := hex
      have := List.find?_eq_none.mp hf m hm
      simp [hesc] at this
    | some m =>
      refine ⟨⟨"Invalid zip entry: " ++ m, ?_⟩, ?_⟩ <;>
        simp [safe_extract_zip, hf, writtenPaths]
  · intro p hp
    cases hf : members.find?
        (fun m => zip_member_escapes cwd (renderAbs (realpathComps cwd target_dir)) m) with
    | some m => simp [safe_extract_zip, hf, writtenPaths] at hp
    | none =>
      simp only [safe_extract_zip, hf, writtenPaths, extractall_written,
        List.mem_filterMap] at hp
      obtain ⟨m, _, hm⟩ := hp
      rcases hcomps : zip_sanitize_member m with _ | ⟨c, cs⟩ <;> rw [hcomps] at hm
      · simp at hm
      · simp only [Option.some_inj] at hm
        subst hm
        have : renderAbs (realpathComps cwd target_dir) ++ "/" ++ joinComps (c :: cs)
            = (renderAbs (realpathComps cwd target_dir) ++ "/") ++ joinComps (c :: cs) := by
          rfl
        rw [this]
        exact strStartsWith_append _ _

theorem safe_extract_zip_safety_witness :
    (∃ m ∈ ["../../etc/x"],
        zip_member_escapes ["home"] (renderAbs (realpathComps ["home"] "/tmp/sdk")) m = true)
    ∧ (∃ msg, safe_extract_zip ["home"] ["../../etc/x"] "/tmp/sdk" = Except.error msg)
    ∧ writtenPaths (safe_extract_zip ["home"] ["../../etc/x"] "/tmp/sdk") = [] :=
  ⟨by decide,
   ((safe_extract_zip_safety ["home"] ["../../etc/x"] "/tmp/sdk").1 (by decide)).1,
   ((safe_extract_zip_safety ["home"] ["../../etc/x"] "/tmp/sdk").1 (by decide)).2⟩

/-! ## Packaging lemmas -/

theorem pib_no_error (env : PkgEnv) (platforms : List String)
    (he : ∀ p, env.copyElfRaises p = false) :
    ∃ b files, package_intermediate_binaries env platforms = Except.ok (b, files) := by
  induction platforms with
  | nil => exact ⟨true, [], rfl⟩
  | cons q rest ih =>
    cases hq : find_elf_file env.fs q with
    | none => exact ⟨false, [], by simp [package_intermediate_binaries, hq]⟩
    | some e =>
      obtain ⟨b, files, hrest⟩ := ih
      exact ⟨b, ("elf/" ++ q ++ ".elf") :: files,
        by simp [package_intermediate_binaries, hq, he q, hrest]⟩

theorem pib_false_of_missing (env : PkgEnv) (platforms : List String)
    (he : ∀ p, env.copyElfRaises p = false)
    (hmiss : ∃ p ∈ platforms, find_elf_file env.fs p = none) :
    ∃ files, package_intermediate_binaries env platforms = Except.ok (false, files) := by
  induction platforms with
  | nil => simp at hmiss
  | cons q rest ih =>
    cases hq : find_elf_file env.fs q with
    | none => exact ⟨[], by simp [package_intermediate_binaries, hq]⟩
    | some e =>
      have hrest : ∃ p ∈ rest, find_elf_file env.fs p = none := by
        obtain ⟨p, hp, hpn⟩ := hmiss
        rcases List.mem_cons.mp hp with rfl | hp'
        · rw [hq] at hpn; cases hpn
        · exact ⟨p, hp', hpn⟩
      obtain ⟨files, hbin⟩ := ih hrest
      exact ⟨("elf/" ++ q ++ ".elf") :: files,
        by simp [package_intermediate_binaries, hq, he q, hbin]⟩

theorem pib_not_true_of_missing (env : PkgEnv) (platforms : List String)
    (hmiss : ∃ p ∈ platforms, find_elf_file env.fs p = none) :
    ∀ files, package_intermediate_binaries env platforms ≠ Except.ok (true, files) := by
  induction platforms with
  | nil => simp at hmiss
  | cons q rest ih =>
    intro files
    cases hq : find_elf_file env.fs q with
    | none => simp [package_intermediate_binaries, hq]
    | some e =>
      have hrest : ∃ p ∈ rest, find_elf_file env.fs p = none := by
        obtain ⟨p, hp, hpn⟩ := hmiss
        rcases List.mem_cons.mp hp with rfl | hp'
        · rw [hq] at hpn; cases hpn
        · exact ⟨p, hp', hpn⟩
      cases hr : env.copyElfRaises q with
      | true => simp [package_intermediate_binaries, hq, hr]
      | false =>
        cases hrec : package_intermediate_binaries env rest with
        | error e' => simp [package_intermediate_binaries, hq, hr, hrec]
        | ok s =>
          rcases s with ⟨b, files'⟩
          cases b with
          | true => exact absurd hrec (ih hrest files')
          | false => simp [package_intermediate_binaries, hq, hr, hrec]

theorem pib_mem_of_true (env : PkgEnv) (platforms : List String) (files : List String)
    (h : package_intermediate_binaries env platforms = Except.ok (true, files)) :
    ∀ p ∈ platforms, ("elf/" ++ p ++ ".elf") ∈ files := by
  induction platforms generalizing files with
  | nil => simp
  | cons q rest ih =>
    intro p hp
    cases hq : find_elf_file env.fs q with
    | none => simp [package_intermediate_binaries, hq] at h
    | some e =>
      cases hr : env.copyElfRaises q with
      | true => simp [package_intermediate_binaries, hq, hr] at h
      | false =>
        cases hrec : package_intermediate_binaries env rest with
        | error e' => simp [package_intermediate_binaries, hq, hr, hrec] at h
        | ok s =>
          rcases s with ⟨b, files'⟩
          simp only [package_intermediate_binaries, hq, hr, Bool.false_eq_true,
            if_false, hrec] at h
          have h2 := Except.ok.inj h
          have hb : b = true := congrArg Prod.fst h2
          have hf : ("elf/" ++ q ++ ".elf") :: files' = files := congrArg Prod.snd h2
          subst hb
          subst hf
          rcases List.mem_cons.mp hp with rfl | hp'
          · exact List.mem_cons_self _ _
          · exact List.mem_cons_of_mem _ (ih files' hrec p hp')

theorem package_intermediate_true_contents (env : PkgEnv) (platforms : List String)
    (staging : List String)
    (h : package_intermediate env platforms = Except.ok (true, staging)) :
    "manifest.properties" ∈ staging
    ∧ ∀ p ∈ platforms, ("elf/" ++ p ++ ".elf") ∈ staging := by
  cases hman : env.manifestExists with
  | false => simp [package_intermediate, package_intermediate_manifest, hman] at h
  | true =>
    cases hmr : env.copyManifestRaises with
    | true => simp [package_intermediate, package_intermediate_manifest, hman, hmr] at h
    | false =>
      cases hbin : package_intermediate_binaries env platforms with
      | error e =>
        simp [package_intermediate, package_intermediate_manifest, hman, hmr, hbin] at h
      | ok s =>
        rcases s with ⟨b, files⟩
        cases b with
        | false =>
          simp [package_intermediate, package_intermediate_manifest, hman, hmr, hbin] at h
        | true =>
          cases hast : package_intermediate_assets env with
          | error e =>
            simp [package_intermediate, package_intermediate_manifest, hman, hmr, hbin,
              hast] at h
          | ok af =>
            simp only [package_intermediate, package_intermediate_manifest, hman, hmr,
              Bool.not_true, Bool.false_eq_true, if_false, hbin, hast] at h
            cases h
            constructor
            · simp
            · intro p hp
              have := pib_mem_of_true env platforms files hbin p hp
              simp [this]

theorem package_intermediate_not_true_of_missing (env : PkgEnv) (platforms : List String)
    (hmiss : ∃ p ∈ platforms, find_elf_file env.fs p = none) :
    ∀ staging, package_intermediate env platforms ≠ Except.ok (true, staging) := by
  intro staging h
  cases hman : env.manifestExists with
  | false => simp [package_intermediate, package_intermediate_manifest, hman] at h
  | true =>
    cases hmr : env.copyManifestRaises with
    | true => simp [package_intermediate, package_intermediate_manifest, hman, hmr] at h
    | false =>
      cases hbin : package_intermediate_binaries env platforms with
      | error e =>
        simp [package_intermediate, package_intermediate_manifest, hman, hmr, hbin] at h
      | ok s =>
        rcases s with ⟨b, files⟩
        cases b with
        | false =>
          simp [package_intermediate, package_intermediate_manifest, hman, hmr, hbin] at h
        | true => exact pib_not_true_of_missing env platforms hmiss files hbin

/-! ## C3: packaging failure containment -/

/-- C3 counterexample: with the manifest present but its `shutil.copy`
raising an I/O error during staging, `package_all` lets the exception
escape (the staging phase runs outside the `try` block), contradicting the
claim that every staging I/O exception is caught locally. -/
theorem package_all_staging_exception_counterexample :
    package_all ⟨⟨[]⟩, true, false, [], true, fun _ => false, false, false, false⟩
        ["esp32s3"]
      = Except.error PyErr.ioError := rfl

/-- C3 amended: any missing required artifact is converted into a reported
packaging failure (`False`), and once staging has completed, every
exception of the archive-creation step (`package_name` and the tar block)
is caught and converted into `False`; only an I/O exception raised during
staging itself escapes `package_all`. So whenever the staging copies do not
raise, `package_all` returns normally for every fault pattern of the tar
step. -/
theorem package_all_no_unhandled (env : PkgEnv) (platforms : List String)
    (hm : env.copyManifestRaises = false)
    (he : ∀ p, env.copyElfRaises p = false)
    (ha : env.copyAssetsRaises = false) :
    (∃ r, package_all env platforms = Except.ok r)
    ∧ ((env.manifestExists = false ∨ ∃ p ∈ platforms, find_elf_file env.fs p = none) →
        package_all env platforms = Except.ok (false, none)) := by
  have hassets : ∃ af, package_intermediate_assets env = Except.ok af := by
    cases hA : env.assetsExists <;> simp [package_intermediate_assets, hA, ha]
  obtain ⟨af, haf⟩ := hassets
  have hint : ∃ s, package_intermediate env platforms = Except.ok s := by
    cases hman : env.manifestExists with
    | false =>
      exact ⟨(false, []), by simp [package_intermediate, package_intermediate_manifest, hman]⟩
    | true =>
      obtain ⟨b, files, hbin⟩ := pib_no_error env platforms he
      cases b with
      | false =>
        exact ⟨(false, []),
          by simp [package_intermediate, package_intermediate_manifest, hman, hm, hbin]⟩
      | true =>
        exact ⟨(true, ["manifest.properties"] ++ files ++ af),
          by simp [package_intermediate, package_intermediate_manifest, hman, hm, hbin, haf]⟩
  constructor
  · obtain ⟨⟨b, staging⟩, hs⟩ := hint
    cases b with
    | false => exact ⟨(false, none), by simp [package_all, hs]⟩
    | true =>
      cases hname : package_name env.fs platforms with
      | error e => exact ⟨(false, none), by simp [package_all, hs, hname]⟩
      | ok tarPath =>
        cases hto : env.tarOpenRaises with
        | true => exact ⟨(false, none), by simp [package_all, hs, hname, hto]⟩
        | false =>
          cases hta : env.tarAddRaises with
          | true =>
            exact ⟨(false, some ⟨tarPath, []⟩), by simp [package_all, hs, hname, hto, hta]⟩
          | false =>
            exact ⟨(true, some ⟨tarPath, staging⟩),
              by simp [package_all, hs, hname, hto, hta]⟩
  · intro hmiss
    rcases hmiss with hman | hmiss
    · simp [package_all, package_intermediate, package_intermediate_manifest, hman]
    · cases hman : env.manifestExists with
      | false => simp [package_all, package_intermediate, package_intermediate_manifest, hman]
      | true =>
        obtain ⟨files, hbin⟩ := pib_false_of_missing env platforms he hmiss
        simp [package_all, package_intermediate, package_intermediate_manifest, hman, hm, hbin]

theorem package_all_no_unhandled_witness :
    package_all ⟨⟨[]⟩, false, false, [], false, fun _ => false, false, false, false⟩
        ["esp32s3"]
      = Except.ok (false, none) :=
  (package_all_no_unhandled
      ⟨⟨[]⟩, false, false, [], false, fun _ => false, false, false, false⟩
      ["esp32s3"] rfl (fun _ => rfl) rfl).2 (Or.inl rfl)

/-! ## C7: package completeness and abort-before-archive -/

/-- C7: a successfully built package contains the manifest and one
`elf/{platform}.elf` entry per requested platform; and whenever some
requested platform has no ELF artifact, `package_all` cannot succeed and
no archive file is written (the staging failure precedes `tarfile.open`). -/
theorem package_contents (env : PkgEnv) (platforms : List String) :
    (∀ t : TarFile, package_all env platforms = Except.ok (true, some t) →
        "manifest.properties" ∈ t.contents
        ∧ ∀ p ∈ platforms, ("elf/" ++ p ++ ".elf") ∈ t.contents)
    ∧ ((∃ p ∈ platforms, find_elf_file env.fs p = none) →
        tarWritten (package_all env platforms) = none
        ∧ ∀ t : TarFile, package_all env platforms ≠ Except.ok (true, some t)) := by
  constructor
  · intro t h
    cases hs : package_intermediate env platforms with
    | error e => simp [package_all, hs] at h
    | ok s =>
      rcases s with ⟨b, staging⟩
      cases b with
      | false => simp [package_all, hs] at h
      | true =>
        cases hname : package_name env.fs platforms with
        | error e => simp [package_all, hs, hname] at h
        | ok tarPath =>
          cases hto : env.tarOpenRaises with
          | true => simp [package_all, hs, hname, hto] at h
          | false =>
            cases hta : env.tarAddRaises with
            | true => simp [package_all, hs, hname, hto, hta] at h
            | false =>
              simp only [package_all, hs, hname, hto, hta, Bool.false_eq_true,
                if_false] at h
              cases h
              exact package_intermediate_true_contents env platforms staging hs
  · intro hmiss
    cases hs : package_intermediate env platforms with
    | error e => simp [package_all, tarWritten, hs]
    | ok s =>
      rcases s with ⟨b, staging⟩
      cases b with
      | false => simp [package_all, tarWritten, hs]
      | true => exact absurd hs (package_intermediate_not_true_of_missing env platforms hmiss staging)

theorem package_contents_witness :
    "manifest.properties" ∈ ["manifest.properties", "elf/esp32s3.elf"]
    ∧ ("elf/" ++ "esp32s3" ++ ".elf") ∈ ["manifest.properties", "elf/esp32s3.elf"] :=
  ⟨((package_contents
        ⟨⟨[("build/cmake-build-esp32s3", ["m.app.elf"])]⟩, true, false, [],
          false, fun _ => false, false, false, false⟩ ["esp32s3"]).1
      ⟨"build/m.app", ["manifest.properties", "elf/esp32s3.elf"]⟩ rfl).1,
   ((package_contents
        ⟨⟨[("build/cmake-build-esp32s3", ["m.app.elf"])]⟩, true, false, [],
          false, fun _ => false, false, false, false⟩ ["esp32s3"]).1
      ⟨"build/m.app", ["manifest.properties", "elf/esp32s3.elf"]⟩ rfl).2
     "esp32s3" (by simp)⟩

/-! ## C1: first-build success oracle -/

/-- C1 counterexample: with no pre-existing artifact and an external command
that exits 0 without creating any ELF file, `build_first` declares success
although no artifact exists on disk afterwards, so success is not
equivalent to post-run artifact presence independently of the exit code. -/
theorem build_first_exit_zero_counterexample :
    find_elf_file (⟨[]⟩ : Fs) "esp32s3" = none
    ∧ (build_first cmdEnvExitZero ⟨[]⟩ "1.0" "esp32s3" false).1 = true
    ∧ find_elf_file (build_first cmdEnvExitZero ⟨[]⟩ "1.0" "esp32s3" false).2.1 "esp32s3"
        = none :=
  ⟨rfl, rfl, rfl⟩

/-- C1 amended: for a platform with no pre-existing ELF artifact (and
`skip_build` off), `build_first` declares success iff the external
command's exit code is zero or an ELF artifact exists on disk after the
command completes; when it fails, the buffered process output is printed. -/
theorem build_first_success_iff (env : CmdEnv) (fs : Fs) (version platform : String)
    (h : find_elf_file fs platform = none) :
    ((build_first env fs version platform false).1 = true ↔
      ((env.run ["idf.py", "-B", get_cmake_path platform, "build"] fs).1 = 0
        ∨ (find_elf_file
            (env.run ["idf.py", "-B", get_cmake_path platform, "build"] fs).2.1
            platform).isSome = true))
    ∧ ((build_first env fs version platform false).1 = false →
        BuildEv.printLines
            (env.run ["idf.py", "-B", get_cmake_path platform, "build"] fs).2.2
          ∈ (build_first env fs version platform false).2.2) := by
  rcases hr : env.run ["idf.py", "-B", get_cmake_path platform, "build"] fs
    with ⟨rc, fs2, output⟩
  by_cases h0 : rc = 0
  · subst h0
    constructor
    · simp [build_first, h, hr]
    · intro hfalse
      simp [build_first, h, hr] at hfalse
  · cases hfe : find_elf_file fs2 platform with
    | some e =>
      constructor
      · simp [build_first, h, hr, h0, hfe]
      · intro hfalse
        simp [build_first, h, hr, h0, hfe] at hfalse
    | none =>
      constructor
      · simp [build_first, h, hr, h0, hfe]
      · intro _
        simp [build_first, h, hr, h0, hfe]

theorem build_first_success_iff_witness :
    find_elf_file (⟨[]⟩ : Fs) "esp32s3" = none
    ∧ ((build_first cmdEnvFailCreatesElf ⟨[]⟩ "1.0" "esp32s3" false).1 = true ↔
        ((cmdEnvFailCreatesElf.run ["idf.py", "-B", get_cmake_path "esp32s3", "build"]
            ⟨[]⟩).1 = 0
          ∨ (find_elf_file
              (cmdEnvFailCreatesElf.run
                ["idf.py", "-B", get_cmake_path "esp32s3", "build"] ⟨[]⟩).2.1
              "esp32s3").isSome = true)) :=
  ⟨rfl, (build_first_success_iff cmdEnvFailCreatesElf ⟨[]⟩ "1.0" "esp32s3" rfl).1⟩

/-! ## C5: incremental build trusts the exit code -/

/-- C5: when an ELF artifact already exists, `build_all`'s dispatch runs the
incremental variant `build_consecutively` (the `idf.py ... elf` command),
which succeeds exactly when the exit code is zero, and on a non-zero exit
code prints the buffered process output and fails. -/
theorem build_consecutively_exit_code (env : CmdEnv) (fs : Fs) (version platform : String)
    (h : (find_elf_file fs platform).isSome = true) :
    build_platform env fs version platform false
      = build_consecutively env fs version platform false
    ∧ ((build_consecutively env fs version platform false).1 = true ↔
        (env.run ["idf.py", "-B", get_cmake_path platform, "elf"] fs).1 = 0)
    ∧ ((env.run ["idf.py", "-B", get_cmake_path platform, "elf"] fs).1 ≠ 0 →
        BuildEv.printLines
            (env.run ["idf.py", "-B", get_cmake_path platform, "elf"] fs).2.2
          ∈ (build_consecutively env fs version platform false).2.2) := by
  obtain ⟨e, he⟩ := Option.isSome_iff_exists.mp h
  refine ⟨by simp [build_platform, he], ?_, ?_⟩
  · rcases hr : env.run ["idf.py", "-B", get_cmake_path platform, "elf"] fs
      with ⟨rc, fs2, output⟩
    by_cases h0 : rc = 0
    · subst h0
      simp [build_consecutively, hr]
    · simp [build_consecutively, hr, h0]
  · intro hrc
    rcases hr : env.run ["idf.py", "-B", get_cmake_path platform, "elf"] fs
      with ⟨rc, fs2, output⟩
    rw [hr] at hrc
    simp only at hrc
    simp [build_consecutively, hr, hrc]

theorem build_consecutively_exit_code_witness :
    (find_elf_file fsWithElf "esp32s3").isSome = true
    ∧ ((build_consecutively cmdEnvFailNoElf fsWithElf "1.0" "esp32s3" false).1 = true ↔
        (cmdEnvFailNoElf.run ["idf.py", "-B", get_cmake_path "esp32s3", "elf"]
          fsWithElf).1 = 0) :=
  ⟨rfl,
   (build_consecutively_exit_code cmdEnvFailNoElf fsWithElf "1.0" "esp32s3" rfl).2.1⟩

/-! ## C4: fail-fast multi-platform builds -/

/-- C4: `build_all` iterates platforms in list order; once every platform of
a prefix has built successfully and the next platform's build fails, the
whole run equals the run truncated right after the failing platform (so no
later platform is attempted — no event for it is emitted) and the overall
result is failure. -/
theorem build_all_fail_fast (env : CmdEnv) (fs : Fs) (version : String)
    (pre : List String) (b : String) (post : List String) (skipBuild : Bool)
    (hpre : (build_seq env fs version pre skipBuild).1 = true)
    (hb : (build_platform env (build_seq env fs version pre skipBuild).2 version b
        skipBuild).1 = false) :
    build_all env fs version (pre ++ b :: post) skipBuild
      = build_all env fs version (pre ++ [b]) skipBuild
    ∧ (build_all env fs version (pre ++ b :: post) skipBuild).1 = false := by
  induction pre generalizing fs with
  | nil =>
    simp only [build_seq] at hpre hb
    constructor
    · simp [build_all, hb]
    · simp [build_all, hb]
  | cons p ps ih =>
    have hp1 : (build_platform env fs version p skipBuild).1 = true := by
      cases hpp : (build_platform env fs version p skipBuild).1 with
      | true => rfl
      | false => simp [build_seq, hpp] at hpre
    simp only [build_seq, hp1, if_true] at hpre hb
    obtain ⟨iheq, ihfalse⟩ :=
      ih (build_platform env fs version p skipBuild).2.1 hpre hb
    constructor
    · simp only [List.cons_append, build_all, hp1, if_true, List.append_eq]
      rw [iheq]
    · simp only [List.cons_append, build_all, hp1, if_true, List.append_eq]
      exact ihfalse

theorem build_all_fail_fast_witness :
    (build_seq cmdEnvFailNoElf ⟨[]⟩ "1.0" [] false).1 = true
    ∧ build_all cmdEnvFailNoElf ⟨[]⟩ "1.0" ["b1", "c1"] false
        = build_all cmdEnvFailNoElf ⟨[]⟩ "1.0" ["b1"] false
    ∧ (build_all cmdEnvFailNoElf ⟨[]⟩ "1.0" ["b1", "c1"] false).1 = false :=
  ⟨rfl,
   (build_all_fail_fast cmdEnvFailNoElf ⟨[]⟩ "1.0" [] "b1" ["c1"] false rfl rfl).1,
   (build_all_fail_fast cmdEnvFailNoElf ⟨[]⟩ "1.0" [] "b1" ["c1"] false rfl rfl).2⟩

/-! ## C6: SDK cache idempotence -/

theorem makedirs_contains (fs : SdkFs) (p : String) :
    (makedirs fs p).dirs.contains p = true := by
  unfold makedirs
  split
  next h => exact h
  next h => simp

/-- C6: if the SDK directory already exists, `sdk_download_all` performs no
network fetch and succeeds leaving the cache untouched; and for a fresh
cache a successful resolution downloads the SDK once (the `index.json`
fetch and the archive fetch), creates the SDK directory, and a second
resolution of the same `(version, platform)` performs no fetch at all. -/
theorem sdk_download_all_idempotent (env : SdkEnv) (fs : SdkFs) (version platform : String)
    (entry : String × String)
    (hmiss : sdk_exists fs version platform = false)
    (hidx : env.indexPlatforms.find? (fun e => e.1 == platform) = some entry)
    (hdl1 : env.downloadOk (get_sdk_url version "index.json") = true)
    (hdl2 : env.downloadOk (get_sdk_url version entry.2) = true)
    (hsafe : (env.zipMembers.find? (fun m =>
        zip_member_escapes env.cwd
          (renderAbs (realpathComps env.cwd
            (get_sdk_root_dir version platform ++ "/" ++ "TactilitySDK"))) m)) = none)
    (hne : env.zipMembers.any (fun m => !(zip_sanitize_member m).isEmpty) = true) :
    (∀ fs0 : SdkFs, sdk_exists fs0 version platform = true →
        sdk_download_all env fs0 version [platform] = Except.ok (true, fs0, []))
    ∧ ∃ fs1 : SdkFs,
        sdk_download_all env fs version [platform]
          = Except.ok (true, fs1,
              [NetEv.download (get_sdk_url version "index.json")
                 (get_sdk_root_dir version platform ++ "/" ++ "index.json"),
               NetEv.download (get_sdk_url version entry.2)
                 (get_sdk_root_dir version platform ++ "/"
                   ++ (version ++ "-" ++ platform ++ ".zip"))])
        ∧ sdk_exists fs1 version platform = true
        ∧ sdk_download_all env fs1 version [platform] = Except.ok (true, fs1, []) := by
  have hcache : ∀ fs0 : SdkFs, sdk_exists fs0 version platform = true →
      sdk_download_all env fs0 version [platform] = Except.ok (true, fs0, []) := by
    intro fs0 h0
    simp [sdk_download_all, h0]
  have hextract : safe_extract_zip env.cwd env.zipMembers
      (get_sdk_root_dir version platform ++ "/" ++ "TactilitySDK")
      = Except.ok (extractall_written
          (renderAbs (realpathComps env.cwd
            (get_sdk_root_dir version platform ++ "/" ++ "TactilitySDK")))
          env.zipMembers) := by
    simp [safe_extract_zip, hsafe]
  have hwne : (extractall_written
      (renderAbs (realpathComps env.cwd
        (get_sdk_root_dir version platform ++ "/" ++ "TactilitySDK")))
      env.zipMembers).isEmpty = false := by
    obtain ⟨m, hm, hsan⟩ := List.any_eq_true.mp hne
    rcases hc : zip_sanitize_member m with _ | ⟨c, cs⟩
    · rw [hc] at hsan
      simp at hsan
    · have hmem : (renderAbs (realpathComps env.cwd
          (get_sdk_root_dir version platform ++ "/" ++ "TactilitySDK"))
            ++ "/" ++ joinComps (c :: cs))
          ∈ extractall_written
              (renderAbs (realpathComps env.cwd
                (get_sdk_root_dir version platform ++ "/" ++ "TactilitySDK")))
              env.zipMembers := by
        refine List.mem_filterMap.mpr ⟨m, hm, ?_⟩
        rw [hc]
      cases hw : extractall_written
          (renderAbs (realpathComps env.cwd
            (get_sdk_root_dir version platform ++ "/" ++ "TactilitySDK")))
          env.zipMembers with
      | nil => rw [hw] at hmem; cases hmem
      | cons a l => rfl
  have hdl : sdk_download env fs version platform
      = Except.ok (true,
          makedirs (makedirs fs (get_sdk_root_dir version platform))
            (get_sdk_root_dir version platform ++ "/" ++ "TactilitySDK"),
          [NetEv.download (get_sdk_url version "index.json")
             (get_sdk_root_dir version platform ++ "/" ++ "index.json"),
           NetEv.download (get_sdk_url version entry.2)
             (get_sdk_root_dir version platform ++ "/"
               ++ (version ++ "-" ++ platform ++ ".zip"))]) := by
    simp [sdk_download, hdl1, hidx, hdl2, hextract, hwne]
  have hex1 : sdk_exists
      (makedirs (makedirs fs (get_sdk_root_dir version platform))
        (get_sdk_root_dir version platform ++ "/" ++ "TactilitySDK"))
      version platform = true := by
    have := makedirs_contains (makedirs fs (get_sdk_root_dir version platform))
      (get_sdk_root_dir version platform ++ "/" ++ "TactilitySDK")
    simpa [sdk_exists, isdir, get_sdk_dir, get_sdk_root_dir] using this
  refine ⟨hcache,
    makedirs (makedirs fs (get_sdk_root_dir version platform))
      (get_sdk_root_dir version platform ++ "/" ++ "TactilitySDK"), ?_, hex1,
    hcache _ hex1⟩
  simp [sdk_download_all, hmiss, hdl]

theorem sdk_download_all_idempotent_witness :
    ∃ fs1 : SdkFs,
      sdk_download_all
          ⟨["w"], fun _ => true, [("esp32s3", "sdk.zip")], ["lib/a.h"]⟩
          ⟨[]⟩ "1.0" ["esp32s3"]
        = Except.ok (true, fs1,
            [NetEv.download (get_sdk_url "1.0" "index.json")
               (get_sdk_root_dir "1.0" "esp32s3" ++ "/" ++ "index.json"),
             NetEv.download (get_sdk_url "1.0" ("esp32s3", "sdk.zip").2)
               (get_sdk_root_dir "1.0" "esp32s3" ++ "/"
                 ++ ("1.0" ++ "-" ++ "esp32s3" ++ ".zip"))])
      ∧ sdk_exists fs1 "1.0" "esp32s3" = true
      ∧ sdk_download_all
          ⟨["w"], fun _ => true, [("esp32s3", "sdk.zip")], ["lib/a.h"]⟩
          fs1 "1.0" ["esp32s3"]
        = Except.ok (true, fs1, []) :=
  (sdk_download_all_idempotent
      ⟨["w"], fun _ => true, [("esp32s3", "sdk.zip")], ["lib/a.h"]⟩
      ⟨[]⟩ "1.0" "esp32s3" ("esp32s3", "sdk.zip")
      rfl rfl rfl rfl (by decide) (by decide)).2

/-! ## C9: install action status handling -/

/-- C9: under the pre-conditions that make `install_action` reach the HTTP
request (every requested platform has an artifact, a nonempty platform
list, and the package file opens), the call never lets an exception escape;
a non-200 response is reported as a failed install returning `False`, a 200
response is reported as success returning `True`, and a transport-level
exception is caught and reported as a request failure carrying its cause,
a report distinct from the non-200 one. -/
theorem install_action_status (env : InstallEnv) (ip : String) (platforms : List String)
    (hclean : install_missing_elf env.fs platforms = none)
    (hne : platforms ≠ [])
    (hio : env.openRaisesIO = false) :
    (∃ r, install_action env ip platforms = Except.ok r)
    ∧ (∀ status, env.outcome = HttpOutcome.resp status → status ≠ 200 →
        ∃ msgs, install_action env ip platforms = Except.ok (false, msgs)
          ∧ Msg.statusError "Install failed" ∈ msgs)
    ∧ (env.outcome = HttpOutcome.resp 200 →
        ∃ msgs, install_action env ip platforms = Except.ok (true, msgs))
    ∧ (∀ m, env.outcome = HttpOutcome.transportError m →
        ∃ msgs, install_action env ip platforms = Except.ok (false, msgs)
          ∧ Msg.statusError ("Install request failed: " ++ m) ∈ msgs
          ∧ Msg.statusError "Install failed" ∉ msgs) := by
  rcases platforms with _ | ⟨p, rest⟩
  · exact absurd rfl hne
  obtain ⟨e, hpe⟩ : ∃ e, find_elf_file env.fs p = some e := by
    cases hfe : find_elf_file env.fs p with
    | none => simp [install_missing_elf, hfe] at hclean
    | some e => exact ⟨e, rfl⟩
  have hname : package_name env.fs (p :: rest)
      = Except.ok ("build" ++ "/" ++ (removesuffix (basename e) ".app.elf" ++ ".app")) := by
    simp [package_name, hpe]
  refine ⟨?_, ?_, ?_, ?_⟩
  · cases ho : env.outcome with
    | transportError m =>
      exact ⟨(false, [Msg.statusBusy "Installing",
          Msg.statusError ("Install request failed: " ++ m)]),
        by simp [install_action, hclean, hname, hio, ho]⟩
    | resp status =>
      by_cases hs : status = 200
      · subst hs
        exact ⟨(true, [Msg.statusBusy "Installing", Msg.statusSuccess "Installing"]),
          by simp [install_action, hclean, hname, hio, ho]⟩
      · exact ⟨(false, [Msg.statusBusy "Installing", Msg.statusError "Install failed"]),
          by simp [install_action, hclean, hname, hio, ho, hs]⟩
  · intro status ho hs
    refine ⟨[Msg.statusBusy "Installing", Msg.statusError "Install failed"], ?_, ?_⟩
    · simp [install_action, hclean, hname, hio, ho, hs]
    · simp
  · intro ho
    exact ⟨[Msg.statusBusy "Installing", Msg.statusSuccess "Installing"],
      by simp [install_action, hclean, hname, hio, ho]⟩
  · intro m ho
    refine ⟨[Msg.statusBusy "Installing",
        Msg.statusError ("Install request failed: " ++ m)], ?_, ?_, ?_⟩
    · simp [install_action, hclean, hname, hio, ho]
    · simp
    · intro hmem
      simp only [List.mem_cons, List.not_mem_nil, or_false, Msg.statusError.injEq,
        reduceCtorEq, false_or] at hmem
      have hlen := congrArg String.length hmem
      rw [String.length_append] at hlen
      have h14 : ("Install failed" : String).length = 14 := rfl
      have h24 : ("Install request failed: " : String).length = 24 := rfl
      rw [h14, h24] at hlen
      omega

theorem install_action_status_witness :
    install_missing_elf fsWithElf ["esp32s3"] = none
    ∧ ∃ msgs, install_action ⟨fsWithElf, false, HttpOutcome.transportError "timeout"⟩
          "1.2.3.4" ["esp32s3"] = Except.ok (false, msgs)
        ∧ Msg.statusError ("Install request failed: " ++ "timeout") ∈ msgs
        ∧ Msg.statusError "Install failed" ∉ msgs :=
  ⟨rfl,
   (install_action_status ⟨fsWithElf, false, HttpOutcome.transportError "timeout"⟩
      "1.2.3.4" ["esp32s3"] rfl (by decide) rfl).2.2.2 "timeout" rfl⟩

end Tactility
